import Mathlib

/-!
Verification development for the request-routing and dispatch core of an
HTTP/WebSocket server (segment-trie router, multi-phase request pipeline,
response model).  The definitions below are a shallow embedding of the
TypeScript sources `src/server.ts` and `src/interfaces/api/beta/index.ts`:
pure functions mirror the source functions, mutable request state is passed
explicitly, JavaScript objects used as string-keyed records are association
lists with replace-or-append assignment, and `try`/`catch` is `Except`-style
threading of a thrown-value type.
-/

namespace ApiCore

/-! ## Association-list helpers

JavaScript object semantics for string-keyed records: `k in o` / `o[k]`
lookup, and `o[k] = v` assignment which overwrites an existing key in place
or appends a new one. -/

def lookupAssoc {β : Type} : List (String × β) → String → Option β
  | [], _ => none
  | (k, v) :: rest, key => if k = key then some v else lookupAssoc rest key

def setAssoc {β : Type} : List (String × β) → String → β → List (String × β)
  | [], key, val => [(key, val)]
  | (k, v) :: rest, key, val =>
    if k = key then (key, val) :: rest else (k, v) :: setAssoc rest key val

/-! ## Path splitting

`location.split('/').filter((part) => part)` in `registerHandler` and
`url.pathname.split('/').filter((part) => part)` in `requestListener`.
`jsSplitOnSlash` models JavaScript `String.prototype.split('/')`, which
keeps empty fragments (`"a//b".split('/') = ["a","","b"]`, `"".split('/')
= [""]`); the filter then discards the empty ones. -/

def jsSplitOnSlash : List Char → List String
  | [] => [""]
  | c :: rest =>
    let r := jsSplitOnSlash rest
    if c = '/' then "" :: r
    else
      match r with
      | s :: tail => String.mk (c :: s.data) :: tail
      | [] => [String.mk [c]]

def splitPath (s : String) : List String :=
  (jsSplitOnSlash s.data).filter (fun part => part ≠ "")

def joinSlash (parts : List String) : String :=
  String.intercalate "/" parts

/-- `String.prototype.toLowerCase()`, modelled as per-character
lowering (exact for the ASCII method and header names the server
handles). -/
def jsToLower (s : String) : String :=
  String.mk (s.data.map Char.toLower)

/-! ## Dynamic-segment matchers

`registerHandler` compiles each distinct dynamic segment text (a segment
containing `:`) into an anchored regular expression built solely from
literal characters, groups `([^\c]*)` (each immediately followed by the
literal separator `\c`), and a final `(.*)` group.  `MatchTok` is that
token language and `execTokens` its (deterministic) matching semantics:
a `group stop` consumes the maximal run of characters different from
`stop`, a `lit` consumes exactly its character, `groupRest` consumes the
remainder.  Captures are returned in group order. -/

inductive MatchTok where
  | lit (c : Char)
  | group (stop : Char)
  | groupRest
  deriving DecidableEq, Repr

def execTokens : List MatchTok → List Char → Option (List String)
  | [], [] => some []
  | [], _ :: _ => none
  | .lit _ :: _, [] => none
  | .lit c :: ts, x :: xs => if x = c then execTokens ts xs else none
  | .group stop :: ts, xs =>
    let run := xs.takeWhile (fun y => y ≠ stop)
    let rest := xs.dropWhile (fun y => y ≠ stop)
    (execTokens ts rest).map (fun caps => String.mk run :: caps)
  | .groupRest :: ts, xs =>
    (execTokens ts []).map (fun caps => String.mk xs :: caps)

/-! ## The route trie

`class RouteLevel` of `src/server.ts`.  A handler entry is
`(id, callback, priority)`; the callback type is a parameter `α` so the
same trie serves both the routing theorems (opaque payloads) and the
dispatcher (real state-transforming callbacks).  A dynamic-route entry is
`(raw segment text, (compiled tokens, parameter-name mapping, subtree))`,
mirroring `DynamicRoute {match, mapping, sub}` keyed by segment text; a
catch-all entry is `(paramName, suffix, subtree)`, mirroring
`CatchAllRoute {paramName, suffix, level}`.  Association lists keep the
JavaScript object insertion order, which `Object.values` iteration
exposes to lookup. -/

abbrev HandlerEntry (α : Type) := String × α × Nat

inductive RouteLevel (α : Type) : Type where
  | mk (handlers : List (HandlerEntry α))
       (staticRoutes : List (String × RouteLevel α))
       (dynamicRoutes : List (String × (List MatchTok × List String × RouteLevel α)))
       (catchAllRoutes : List (String × List String × RouteLevel α))

def RouteLevel.handlers {α : Type} : RouteLevel α → List (HandlerEntry α)
  | .mk hs _ _ _ => hs

def RouteLevel.staticRoutes {α : Type} : RouteLevel α → List (String × RouteLevel α)
  | .mk _ ss _ _ => ss

def RouteLevel.dynamicRoutes {α : Type} :
    RouteLevel α → List (String × (List MatchTok × List String × RouteLevel α))
  | .mk _ _ ds _ => ds

def RouteLevel.catchAllRoutes {α : Type} :
    RouteLevel α → List (String × List String × RouteLevel α)
  | .mk _ _ _ cs => cs

def RouteLevel.empty {α : Type} : RouteLevel α := .mk [] [] [] []

/-! ## Lookup (`findHandlers` / `getHandler`)

The source walks the trie with an absolute index `depth` into `path`; here
`rest` is the remaining suffix `path[depth:]`, so `depth >= path.length`
becomes `rest = []` and `path.length - depth` becomes `rest.length`.

The source accumulates into a mutable `result` array and, in non-multi
mode, returns as soon as `result` is non-empty.  The pure version
concatenates every branch's contribution in the source's traversal order
(node handlers, then the static child, then dynamic children in insertion
order, then catch-all branches); since branches are pure, the early return
only truncates the list after its first element, so the source's
`result[0]` is the head of the full concatenation and emptiness agrees.

The catch-all branch of the source recurses with `depth = path.length`,
which lands in the exhausted-depth base case at the branch's own level;
`terminalHits` is that base case (multi: every handler at the node;
non-multi: the first handler, if any). -/

structure HandlerRes (α : Type) where
  callback : α
  parameters : List (String × String)
  priority : Nat
  deriving DecidableEq

def terminalHits {α : Type} (level : RouteLevel α) (params : List (String × String))
    (multi : Bool) : List (HandlerRes α) :=
  if multi then
    level.handlers.map (fun h => ⟨h.2.1, params, h.2.2⟩)
  else
    match level.handlers with
    | [] => []
    | h :: _ => [⟨h.2.1, params, h.2.2⟩]

def applyCaptures (params : List (String × String)) (mapping : List String)
    (caps : List String) : List (String × String) :=
  (mapping.zip caps).foldl (fun ps nv => setAssoc ps nv.1 nv.2) params

def findHandlers {α : Type} (level : RouteLevel α) (rest : List String)
    (params : List (String × String)) (multi : Bool) : List (HandlerRes α) :=
  match rest with
  | [] => terminalHits level params multi
  | part :: tail =>
    let nodeHits : List (HandlerRes α) :=
      if multi then level.handlers.map (fun h => ⟨h.2.1, params, h.2.2⟩) else []
    let staticHits : List (HandlerRes α) :=
      match lookupAssoc level.staticRoutes part with
      | some sub => findHandlers sub tail params multi
      | none => []
    let dynHits : List (HandlerRes α) :=
      (level.dynamicRoutes.map (fun kv =>
        match execTokens kv.2.1 part.data with
        | some caps => findHandlers kv.2.2.2 tail (applyCaptures params kv.2.2.1 caps) multi
        | none => [])).flatten
    let catchHits : List (HandlerRes α) :=
      (level.catchAllRoutes.map (fun c =>
        let remaining := (part :: tail).length
        let suffixLen := c.2.1.length
        if remaining < 1 + suffixLen then []
        else if 0 < suffixLen ∧ (part :: tail).drop (remaining - suffixLen) ≠ c.2.1 then []
        else
          let captured := (part :: tail).take (remaining - suffixLen)
          if captured.length < 1 then []
          else terminalHits c.2.2 (setAssoc params c.1 (joinSlash captured)) multi)).flatten
    nodeHits ++ staticHits ++ dynHits ++ catchHits

/-- `getHandler` with `multi = false`: try the specific method root; fall
back to the `any` root only if the specific root produced nothing. -/
def getHandlerSingle {α : Type} (method : String) (path : List String)
    (source : List (String × RouteLevel α)) : Option (HandlerRes α) :=
  let r1 :=
    match lookupAssoc source method with
    | some lvl => findHandlers lvl path [] false
    | none => []
  match r1 with
  | h :: _ => some h
  | [] =>
    match lookupAssoc source "any" with
    | some lvl => (findHandlers lvl path [] false).head?
    | none => none

/-- `getHandler` with `multi = true`: the early returns are disabled, so
both the specific method root and the `any` root are accumulated. -/
def getHandlerMulti {α : Type} (method : String) (path : List String)
    (source : List (String × RouteLevel α)) : List (HandlerRes α) :=
  (match lookupAssoc source method with
   | some lvl => findHandlers lvl path [] true
   | none => []) ++
  (match lookupAssoc source "any" with
   | some lvl => findHandlers lvl path [] true
   | none => [])

/-! ## Registration (`registerHandler`)

Segment classification mirrors the JavaScript string tests:
`part.startsWith('::')`, `part.slice(2)`, `part.indexOf(':') >= 0`. -/

def isCatchAllSeg (s : String) : Bool :=
  match s.data with
  | ':' :: ':' :: _ => true
  | _ => false

def catchAllName (s : String) : String :=
  String.mk (s.data.drop 2)

def containsColon (s : String) : Bool :=
  s.data.contains ':'

/-- The `special` character table of `src/server.ts` (segment-internal
literal separators allowed inside a dynamic segment).  `Char.ofNat 39` is
the apostrophe. -/
def isSpecialChar (c : Char) : Bool :=
  c = '$' || c = '-' || c = '_' || c = '.' || c = '+' || c = '!' || c = ' ' ||
  c = '*' || c = Char.ofNat 39 || c = '(' || c = ')' || c = ','

def isAlnumChar (c : Char) : Bool :=
  ('a' ≤ c && c ≤ 'z') || ('A' ≤ c && c ≤ 'Z') || ('0' ≤ c && c ≤ '9')

/-- The registration errors `registerHandler` throws. -/
inductive RegError where
  | catchAllNoName          -- 'Catch-all parameter must have a name'
  | dynAfterCatchAll        -- 'Dynamic segments after catch-all are not supported'
  | invalidUrlParameter     -- 'Invalid URL parameter'
  | invalidCharacter        -- 'Invalid character in URL'
  deriving DecidableEq, Repr

/-- The compilation loop for one dynamic segment: builds the regex token
list and the positional parameter-name mapping; `word` is the in-progress
parameter name (`undefined` / `some` in the source). -/
def compileDynAux : List Char → Option (List Char) → List MatchTok → List String →
    Except RegError (List MatchTok × List String)
  | [], word, toks, mapping =>
    match word with
    | some w => .ok (toks ++ [.groupRest], mapping ++ [String.mk w])
    | none => .ok (toks, mapping)
  | c :: cs, word, toks, mapping =>
    if isSpecialChar c then
      match word with
      | some w => compileDynAux cs none (toks ++ [.group c, .lit c]) (mapping ++ [String.mk w])
      | none => compileDynAux cs none (toks ++ [.lit c]) mapping
    else if c = ':' then
      match word with
      | some _ => .error .invalidUrlParameter
      | none => compileDynAux cs (some []) toks mapping
    else if isAlnumChar c then
      match word with
      | some w => compileDynAux cs (some (w ++ [c])) toks mapping
      | none => compileDynAux cs word (toks ++ [.lit c]) mapping
    else
      .error .invalidCharacter

def compileDynSeg (part : String) : Except RegError (List MatchTok × List String) :=
  compileDynAux part.data none [] []

/-- Replace (the subtree of) the first catch-all branch with the given
parameter name and suffix key, mirroring the in-place mutation of the
branch found by `Array.prototype.find`. -/
def updateCatchAll {α : Type} (name suffixKey : String) (entry : HandlerEntry α) :
    List (String × List String × RouteLevel α) → List (String × List String × RouteLevel α)
  | [] => []
  | c :: rest =>
    if c.1 = name ∧ joinSlash c.2.1 = suffixKey then
      (c.1, c.2.1, .mk (c.2.2.handlers ++ [entry]) c.2.2.staticRoutes
        c.2.2.dynamicRoutes c.2.2.catchAllRoutes) :: rest
    else
      c :: updateCatchAll name suffixKey entry rest

def hasCatchAll {α : Type} (name suffixKey : String) :
    List (String × List String × RouteLevel α) → Bool
  | [] => false
  | c :: rest => (c.1 = name ∧ joinSlash c.2.1 = suffixKey) || hasCatchAll name suffixKey rest

/-- The segment loop of `registerHandler`, threading the walked/extended
node functionally.  On a thrown registration error the partially built
skeleton created by earlier iterations is kept (the source mutated it in
place before throwing), but the fallible step itself leaves the node as it
was at the moment of the throw. -/
def insertHandler {α : Type} (level : RouteLevel α) (parts : List String)
    (entry : HandlerEntry α) : RouteLevel α × Option RegError :=
  match parts with
  | [] =>
    (.mk (level.handlers ++ [entry]) level.staticRoutes level.dynamicRoutes
      level.catchAllRoutes, none)
  | part :: rest =>
    if isCatchAllSeg part then
      let paramName := catchAllName part
      if paramName = "" then (level, some .catchAllNoName)
      else if rest.any containsColon then (level, some .dynAfterCatchAll)
      else
        -- `break` ends the loop at the catch-all branch's level, where the
        -- final `level.handlers.push(...)` attaches the entry.
        let suffixKey := joinSlash rest
        if hasCatchAll paramName suffixKey level.catchAllRoutes then
          (.mk level.handlers level.staticRoutes level.dynamicRoutes
            (updateCatchAll paramName suffixKey entry level.catchAllRoutes), none)
        else
          (.mk level.handlers level.staticRoutes level.dynamicRoutes
            (level.catchAllRoutes ++ [(paramName, rest, .mk [entry] [] [] [])]), none)
    else if containsColon part then
      match lookupAssoc level.dynamicRoutes part with
      | some d =>
        let (sub', err) := insertHandler d.2.2 rest entry
        (.mk level.handlers level.staticRoutes
          (setAssoc level.dynamicRoutes part (d.1, d.2.1, sub')) level.catchAllRoutes, err)
      | none =>
        match compileDynSeg part with
        | .error e => (level, some e)
        | .ok (toks, mapping) =>
          let (sub', err) := insertHandler RouteLevel.empty rest entry
          (.mk level.handlers level.staticRoutes
            (level.dynamicRoutes ++ [(part, (toks, mapping, sub'))]) level.catchAllRoutes, err)
    else
      match lookupAssoc level.staticRoutes part with
      | some sub =>
        let (sub', err) := insertHandler sub rest entry
        (.mk level.handlers (setAssoc level.staticRoutes part sub')
          level.dynamicRoutes level.catchAllRoutes, err)
      | none =>
        let (sub', err) := insertHandler RouteLevel.empty rest entry
        (.mk level.handlers (level.staticRoutes ++ [(part, sub')])
          level.dynamicRoutes level.catchAllRoutes, err)

/-- The five mode roots of `const roots`. -/
inductive Mode where
  | preMode | postMode | mainMode | monitorMode | wsMode
  deriving DecidableEq, Repr

structure Roots (α : Type) where
  mainRoutes : List (String × RouteLevel α)
  preRoutes : List (String × RouteLevel α)
  postRoutes : List (String × RouteLevel α)
  monitorRoutes : List (String × RouteLevel α)
  wsRoutes : List (String × RouteLevel α)

def Roots.empty {α : Type} : Roots α := ⟨[], [], [], [], []⟩

def Roots.get {α : Type} (roots : Roots α) : Mode → List (String × RouteLevel α)
  | .mainMode => roots.mainRoutes
  | .preMode => roots.preRoutes
  | .postMode => roots.postRoutes
  | .monitorMode => roots.monitorRoutes
  | .wsMode => roots.wsRoutes

def Roots.set {α : Type} (roots : Roots α) :
    Mode → List (String × RouteLevel α) → Roots α
  | .mainMode, s => { roots with mainRoutes := s }
  | .preMode, s => { roots with preRoutes := s }
  | .postMode, s => { roots with postRoutes := s }
  | .monitorMode, s => { roots with monitorRoutes := s }
  | .wsMode, s => { roots with wsRoutes := s }

/-- `registerHandler(id, mode, method, location, handler, priority)`.  The
method key is `method?.toLowerCase() || 'any'`; a missing method root is
created before the walk (and survives even if the walk throws). -/
def registerHandler {α : Type} (roots : Roots α) (mode : Mode)
    (method : Option String) (location : String) (id : String) (cb : α)
    (priority : Nat) : Roots α × Option RegError :=
  let parts := splitPath location
  let key :=
    match method with
    | some m => if jsToLower m = "" then "any" else jsToLower m
    | none => "any"
  let source := roots.get mode
  let level := (lookupAssoc source key).getD RouteLevel.empty
  let (level', err) := insertHandler level parts (id, cb, priority)
  (roots.set mode (setAssoc source key level'), err)

/-! ## The response model (`class HTTPResult`)

Status, body (always a string after `setBody`), content type, stream flag
(`stream?: PassThrough` — present or absent; the bytes written to the
stream live outside the model), and the additional-header record.  Handler
return values and thrown values are modelled by `JSValue`: `undef` is the
falsy non-string case, `str` a string, `jsonObj` a non-string non-
`HTTPResult` object carried as its `JSON.stringify` serialization, and
`result` an `HTTPResult` instance. -/

structure HTTPResult where
  status : Nat
  body : String
  contentType : String
  stream : Bool
  headers : List (String × String)
  deriving DecidableEq, Repr

inductive JSValue where
  | undef
  | str (s : String)
  | jsonObj (s : String)
  | result (r : HTTPResult)
  deriving DecidableEq, Repr

/-- JavaScript truthiness of a handler return value. -/
def truthy : JSValue → Bool
  | .undef => false
  | .str s => s ≠ ""
  | .jsonObj _ => true
  | .result _ => true

/-- `setBody(body, type)`: strings (and `undefined`) are stored as-is with
default content type `text/plain`; other objects are stored as their JSON
serialization with default content type `application/json`.  An
`HTTPResult` never reaches `setBody` in the modelled call paths
(`HTTPResult.withHeaders` reuses such a value instead of constructing a
new response around it), so the `.result` branch is unreachable; it is
given the serialization treatment with an empty serialization. -/
def HTTPResult.setBody (r : HTTPResult) (body : JSValue) (type : Option String) :
    HTTPResult :=
  match body with
  | .undef => { r with body := "", contentType := type.getD "text/plain" }
  | .str s => { r with body := s, contentType := type.getD "text/plain" }
  | .jsonObj s => { r with body := s, contentType := type.getD "application/json" }
  | .result _ => { r with body := "", contentType := type.getD "application/json" }

def HTTPResult.setStatus (r : HTTPResult) (status : Nat) : HTTPResult :=
  { r with status := status }

/-- `constructor(status, body?, type?)`: `setBody` then `setStatus`, on an
object whose fields start at their declaration defaults. -/
def HTTPResult.make (status : Nat) (body : JSValue) (type : Option String) :
    HTTPResult :=
  (HTTPResult.setBody ⟨200, "", "text/plain", false, []⟩ body type).setStatus status

def HTTPResult.addHeader (r : HTTPResult) (name value : String) : HTTPResult :=
  { r with headers := setAssoc r.headers name value }

def HTTPResult.getHeaders (r : HTTPResult) : List (String × String) :=
  r.headers

def HTTPResult.isStream (r : HTTPResult) : Bool :=
  r.stream

/-- `withHeaders(res, headers, defaultStatus)`: reuse an `HTTPResult`
value, otherwise wrap the value in a new response at the default status;
then add every given header in order. -/
def HTTPResult.withHeaders (res : JSValue) (headers : List (String × String))
    (defaultStatus : Nat) : HTTPResult :=
  let result :=
    match res with
    | .result r => r
    | v => HTTPResult.make defaultStatus v none
  headers.foldl (fun r kv => r.addHeader kv.1 kv.2) result

/-- `getWriteStream(type, status)`: create the stream if absent and
overwrite content type, status and body. -/
def HTTPResult.getWriteStream (r : HTTPResult) (type : String) (status : Nat) :
    HTTPResult :=
  { r with stream := true, contentType := type, status := status, body := "" }

/-! What reaches the wire: `res.writeHead(status, {...headers,
'Content-Type': contentType})` followed by either the piped stream or
`res.end(body)` (or nothing after the head, for HEAD requests). -/

inductive SentBody where
  | text (s : String)
  | streamed
  | omitted
  deriving DecidableEq, Repr

structure Transmitted where
  status : Nat
  headers : List (String × String)
  body : SentBody
  deriving DecidableEq, Repr

def HTTPResult.sendResponse (r : HTTPResult) (abortStream : Bool) : Transmitted :=
  ⟨r.status, setAssoc r.headers "Content-Type" r.contentType,
    if r.stream && !abortStream then .streamed else .text r.body⟩

def HTTPResult.sendHeadResponse (r : HTTPResult) : Transmitted :=
  ⟨r.status, setAssoc r.headers "Content-Type" r.contentType, .omitted⟩

/-- `cloneResponse`: a fresh `HTTPResult` built from the final response's
status, body and content type, with the headers copied in by `addHeader`.
The stream field is not copied. -/
def cloneResponse (r : HTTPResult) : HTTPResult :=
  r.headers.foldl (fun s kv => s.addHeader kv.1 kv.2)
    (HTTPResult.make r.status (.str r.body) (some r.contentType))

/-! ## The dispatcher (`requestListener` and helpers)

A thrown JavaScript value is a `JSError`: an object with a `message`
property (whose value is a `JSValue`; `selfJson` is the serialization of
the whole error object, used when `message ?? error` falls back to the
error itself), an object without one (carried as its serialization), a
thrown `HTTPResult` instance, or a thrown string primitive.

A route callback maps the request context to the (possibly mutated)
context together with either a normally returned value or a thrown one;
`await` sequencing is the sequencing of these pure calls. -/

inductive JSError where
  | withMessage (m : JSValue) (selfJson : String)
  | plainObj (json : String)
  | resultVal (r : HTTPResult)
  | prim (s : String)
  deriving DecidableEq, Repr

/-- `extractError`: an object with a non-nullish `message` yields that
message; otherwise the error value itself. -/
def extractError : JSError → JSValue
  | .withMessage m selfJson =>
    match m with
    | .undef => .jsonObj selfJson
    | v => v
  | .plainObj json => .jsonObj json
  | .resultVal r => .result r
  | .prim s => .str s

structure Ctx where
  routeParameters : List (String × String)
  response : HTTPResult
  error : Option JSError

abbrev RouteCallback := Ctx → Ctx × Except JSError JSValue

abbrev HandlerResC := HandlerRes RouteCallback

/-- The fresh request context of `requestListener` (the transport handles
and URL are outside the model). -/
def initialCtx : Ctx :=
  ⟨[], HTTPResult.make 404 (.str "Not Found") none, none⟩

/-- `handlers.sort((a, b) => a.priority - b.priority)`: a stable ascending
sort by priority (insertion sort inserting after existing entries of equal
priority). -/
def insertByPriority {α : Type} (h : HandlerRes α) :
    List (HandlerRes α) → List (HandlerRes α)
  | [] => [h]
  | x :: xs =>
    if x.priority ≤ h.priority then x :: insertByPriority h xs else h :: x :: xs

def sortByPriority {α : Type} (l : List (HandlerRes α)) : List (HandlerRes α) :=
  l.foldl (fun acc h => insertByPriority h acc) []

/-- The loop of `executePriorityHandlers`: set the route parameters, await
the handler, and short-circuit on a truthy return or a throw. -/
def runPhase : List HandlerResC → Ctx → Ctx × Except JSError (Option JSValue)
  | [], ctx => (ctx, .ok none)
  | h :: t, ctx =>
    let ctx1 := { ctx with routeParameters := h.parameters }
    match h.callback ctx1 with
    | (ctx2, .error e) => (ctx2, .error e)
    | (ctx2, .ok v) => if truthy v then (ctx2, .ok (some v)) else runPhase t ctx2

def executePriorityHandlers (handlers : List HandlerResC) (ctx : Ctx) :
    Ctx × Except JSError (Option JSValue) :=
  runPhase (sortByPriority handlers) ctx

/-- `setHandlerResponse`: ignored while streaming; otherwise the main
handler's return value (or `''` when falsy) becomes a fresh response at
default status 200 with the accumulated headers merged in. -/
def setHandlerResponse (ctx : Ctx) (result : JSValue) : Ctx :=
  if ctx.response.isStream then ctx
  else if truthy result then
    { ctx with response := HTTPResult.withHeaders result ctx.response.getHeaders 200 }
  else
    { ctx with response := HTTPResult.withHeaders (.str "") ctx.response.getHeaders 200 }

/-- The monitor loop: each monitor's mutations to the snapshot context are
kept for the following monitors, while its return value is discarded and
a throw is caught and logged. -/
def runMonitors : List HandlerResC → Ctx → Ctx
  | [], mctx => mctx
  | m :: t, mctx =>
    let mctx1 := { mctx with routeParameters := m.parameters }
    match m.callback mctx1 with
    | (mctx2, _) => runMonitors t mctx2

/-- `executeMonitors`: monitors run on a snapshot context whose response
is `cloneResponse` of the final response; returns the snapshot context it
started the monitors in and their final (discarded) context. -/
def executeMonitors (monitors : List HandlerResC) (ctx : Ctx) : Ctx × Ctx :=
  let mctx0 := { ctx with routeParameters := [], response := cloneResponse ctx.response }
  (mctx0, runMonitors (sortByPriority monitors) mctx0)

/-- `handleResult`: head-only transmission for HEAD requests. -/
def handleResult (isHeadRequest : Bool) (response : HTTPResult) : Transmitted :=
  if isHeadRequest then response.sendHeadResponse else response.sendResponse false

/-- The main-handler resolution of `requestListener`: exact method, then
the HEAD-to-GET retry. -/
def resolveMain (roots : Roots RouteCallback) (method : String)
    (path : List String) : Option HandlerResC :=
  let h0 := getHandlerSingle method path roots.mainRoutes
  if h0.isNone && method = "head" then getHandlerSingle "get" path roots.mainRoutes
  else h0

/-- The `try` block of `requestListener`: early return when unmatched,
prefix phase with short-circuit, the OPTIONS early return, main phase,
postfix phase.  Returns the context as left by the last executed step, the
thrown error (if any) and the invoked main handler (if any). -/
def tryBlock (handler? : Option HandlerResC) (preHs postHs : List HandlerResC)
    (method : String) (ctx : Ctx) : Ctx × Option JSError × Option HandlerResC :=
  if handler?.isNone && method ≠ "options" then (ctx, none, none)
  else
    match executePriorityHandlers preHs ctx with
    | (c1, .error e) => (c1, some e, none)
    | (c1, .ok (some v)) =>
      ({ c1 with response := HTTPResult.withHeaders v c1.response.getHeaders 200 },
        none, none)
    | (c1, .ok none) =>
      match handler? with
      | none => (c1, none, none)  -- method is OPTIONS here
      | some h =>
        let c2 := { c1 with routeParameters := h.parameters }
        match h.callback c2 with
        | (c3, .error e) => (c3, some e, some h)
        | (c3, .ok v) =>
          let c4 := setHandlerResponse c3 v
          match executePriorityHandlers postHs c4 with
          | (c5, .error e) => (c5, some e, some h)
          | (c5, .ok (some w)) =>
            ({ c5 with response := HTTPResult.withHeaders w c5.response.getHeaders 200 },
              none, some h)
          | (c5, .ok none) => (c5, none, some h)

/-- The observable outcome of one dispatched request. -/
structure DispatchOut where
  finalResponse : HTTPResult
  finalError : Option JSError
  invokedMain : Option HandlerResC
  monitorInput : Ctx
  monitorCalls : Nat
  transmitted : Transmitted

/-- `requestListener` after URL parsing and method normalization: the
`try`/`catch`/`finally` pipeline over the already-split path. -/
def dispatch (roots : Roots RouteCallback) (method : String) (path : List String)
    (isHeadRequest : Bool) : DispatchOut :=
  let handler? := resolveMain roots method path
  let preHs := getHandlerMulti method path roots.preRoutes
  let postHs := getHandlerMulti method path roots.postRoutes
  let (ctx1, requestError, invoked) := tryBlock handler? preHs postHs method initialCtx
  let ctx2 :=
    match requestError with
    | some e =>
      { ctx1 with
        response := HTTPResult.withHeaders (extractError e) ctx1.response.getHeaders 500 }
    | none => ctx1
  let ctx3 := { ctx2 with error := requestError }
  let (mctx0, _) := executeMonitors (getHandlerMulti method path roots.monitorRoutes) ctx3
  { finalResponse := ctx3.response
    finalError := requestError
    invokedMain := invoked
    monitorInput := mctx0
    monitorCalls := 1
    transmitted := handleResult isHeadRequest ctx3.response }

/-- `requestListener`'s request preprocessing: split the path on `/`
discarding empty segments, and lowercase the method (missing or empty
methods default to `get`). -/
def requestListener (roots : Roots RouteCallback) (reqMethod : Option String)
    (pathname : String) : DispatchOut :=
  let method :=
    match reqMethod with
    | some s => if jsToLower s = "" then "get" else jsToLower s
    | none => "get"
  dispatch roots method (splitPath pathname) (method = "head")

/-! ## Routing theorems -/

/-- Full static descent: follow the static children along the whole
remaining path. -/
def staticDescend {α : Type} : RouteLevel α → List String → Option (RouteLevel α)
  | level, [] => some level
  | level, p :: rest =>
    match lookupAssoc level.staticRoutes p with
    | some sub => staticDescend sub rest
    | none => none

theorem head?_append_of_some {β : Type} {l1 l2 : List β} {v : β}
    (h : l1.head? = some v) : (l1 ++ l2).head? = some v := by
  cases l1 with
  | nil => simp at h
  | cons a t => simpa using h

/-- At a node with no handlers, no static children and no dynamic
children, a non-multi lookup on a non-empty remaining path reduces to the
guarded contribution of its single catch-all branch. -/
theorem findHandlers_single_catchAll {α : Type} (x : String) (S : List String)
    (sub : RouteLevel α) (params : List (String × String)) (part : String)
    (tail : List String) :
    findHandlers (RouteLevel.mk [] [] [] [(x, S, sub)]) (part :: tail) params false =
      (if S.length + 1 ≤ (part :: tail).length ∧
          (part :: tail).drop ((part :: tail).length - S.length) = S then
        terminalHits sub
          (setAssoc params x
            (joinSlash ((part :: tail).take ((part :: tail).length - S.length)))) false
      else []) := by
  simp only [findHandlers, RouteLevel.handlers, RouteLevel.staticRoutes,
    RouteLevel.dynamicRoutes, RouteLevel.catchAllRoutes, lookupAssoc,
    List.map_nil, List.flatten_nil, List.map_cons, List.flatten_cons]
  simp only [Bool.false_eq_true, if_false, List.nil_append, List.append_nil,
    List.flatten_nil]
  by_cases hD : S.length + 1 ≤ (part :: tail).length ∧
      (part :: tail).drop ((part :: tail).length - S.length) = S
  · rw [if_pos hD]
    have hA : ¬ ((part :: tail).length < 1 + S.length) := by omega
    have hB : ¬ (0 < S.length ∧
        (part :: tail).drop ((part :: tail).length - S.length) ≠ S) :=
      fun h => h.2 hD.2
    have hC : ¬ (((part :: tail).take ((part :: tail).length - S.length)).length < 1) := by
      rw [List.length_take]
      have := hD.1
      omega
    rw [if_neg hA, if_neg hB, if_neg hC]
  · rw [if_neg hD]
    by_cases hA : (part :: tail).length < 1 + S.length
    · rw [if_pos hA]
    · rw [if_neg hA]
      by_cases hB : 0 < S.length ∧
          (part :: tail).drop ((part :: tail).length - S.length) ≠ S
      · rw [if_pos hB]
      · exfalso
        push_neg at hB
        refine hD ⟨by omega, ?_⟩
        by_cases hS : 0 < S.length
        · exact hB hS
        · have : S = [] := List.length_eq_zero.mp (by omega)
          simp [this]

/-- C1: a catch-all branch `::x` with literal suffix `S`, looked up at the
trie node owning the branch, matches a remaining path `rest` iff
`rest` has at least `1 + |S|` segments and ends with `S`; on a match the
parameter `x` is bound to the `/`-joined interior segments (so for suffix
`["end"]`, `["a","end"]` matches binding `x = "a"`, `["a","b","c","end"]`
matches binding `x = "a/b/c"`, and `["end"]` does not match). -/
theorem c1_catchAll_match {α : Type} (x : String) (S : List String)
    (sub : RouteLevel α) (e : HandlerEntry α) (es : List (HandlerEntry α))
    (params : List (String × String)) (rest : List String)
    (hsub : sub.handlers = e :: es) :
    (findHandlers (RouteLevel.mk [] [] [] [(x, S, sub)]) rest params false ≠ [] ↔
      (S.length + 1 ≤ rest.length ∧ rest.drop (rest.length - S.length) = S)) ∧
    (S.length + 1 ≤ rest.length → rest.drop (rest.length - S.length) = S →
      (findHandlers (RouteLevel.mk [] [] [] [(x, S, sub)]) rest params false).head? =
        some ⟨e.2.1, setAssoc params x
          (joinSlash (rest.take (rest.length - S.length))), e.2.2⟩) := by
  match rest with
  | [] =>
    simp [findHandlers, terminalHits, RouteLevel.handlers]
  | part :: tail =>
    rw [findHandlers_single_catchAll]
    constructor
    · split_ifs with hD
      · constructor
        · intro _
          exact hD
        · intro _
          simp [terminalHits, hsub]
      · constructor
        · intro h
          exact absurd rfl h
        · intro h
          exact absurd h hD
    · intro h1 h2
      rw [if_pos ⟨h1, h2⟩]
      simp [terminalHits, hsub]

/-- C2: at every node lookup tries the static child first, so a request
path that fully matches a chain of static children ending at a node with a
handler resolves, in non-multi mode, to that handler (with unchanged
parameters), whatever dynamic routes or catch-all branches also match; and
`getHandler` therefore resolves it for the request's method root. -/
theorem c2_static_preference {α : Type} :
    (∀ (level : RouteLevel α) (rest : List String) (t : RouteLevel α)
      (e : HandlerEntry α) (es : List (HandlerEntry α)) (params : List (String × String)),
      staticDescend level rest = some t → t.handlers = e :: es →
      (findHandlers level rest params false).head? = some ⟨e.2.1, params, e.2.2⟩) ∧
    (∀ (source : List (String × RouteLevel α)) (method : String) (path : List String)
      (lvl t : RouteLevel α) (e : HandlerEntry α) (es : List (HandlerEntry α)),
      lookupAssoc source method = some lvl → staticDescend lvl path = some t →
      t.handlers = e :: es →
      getHandlerSingle method path source = some ⟨e.2.1, [], e.2.2⟩) := by
  have main : ∀ (rest : List String) (level : RouteLevel α) (t : RouteLevel α)
      (e : HandlerEntry α) (es : List (HandlerEntry α)) (params : List (String × String)),
      staticDescend level rest = some t → t.handlers = e :: es →
      (findHandlers level rest params false).head? = some ⟨e.2.1, params, e.2.2⟩ := by
    intro rest
    induction rest with
    | nil =>
      intro level t e es params hdesc hhs
      simp [staticDescend] at hdesc
      subst hdesc
      simp [findHandlers, terminalHits, hhs]
    | cons p tail ih =>
      intro level t e es params hdesc hhs
      simp only [staticDescend] at hdesc
      match hlook : lookupAssoc level.staticRoutes p with
      | none => simp [hlook] at hdesc
      | some sub =>
        simp only [hlook] at hdesc
        have hrec := ih sub t e es params hdesc hhs
        simp only [findHandlers, hlook]
        simp only [Bool.false_eq_true, if_false, List.nil_append]
        exact head?_append_of_some (head?_append_of_some hrec)
  refine ⟨fun level rest => main rest level, ?_⟩
  intro source method path lvl t e es hsrc hdesc hhs
  have hfind := main path lvl t e es [] hdesc hhs
  simp only [getHandlerSingle, hsrc]
  match hres : findHandlers lvl path [] false with
  | [] => rw [hres] at hfind; simp at hfind
  | h :: rest' =>
    rw [hres] at hfind
    simp at hfind
    simpa using hfind

/-- Witness for C1: catch-all `::x` with suffix `end` on the path
`a/b/end` matches and binds `x = "a/b"`. -/
theorem c1_catchAll_match_witness :
    (RouteLevel.mk [("h", 7, 2)] [] [] [] : RouteLevel Nat).handlers = ("h", 7, 2) :: [] ∧
    ((findHandlers
        (RouteLevel.mk [] [] [] [("x", ["end"], RouteLevel.mk [("h", 7, 2)] [] [] [])] :
          RouteLevel Nat) ["a", "b", "end"] [] false ≠ [] ↔
      (["end"].length + 1 ≤ ["a", "b", "end"].length ∧
        ["a", "b", "end"].drop (["a", "b", "end"].length - ["end"].length) = ["end"])) ∧
    (["end"].length + 1 ≤ ["a", "b", "end"].length →
      ["a", "b", "end"].drop (["a", "b", "end"].length - ["end"].length) = ["end"] →
      (findHandlers
        (RouteLevel.mk [] [] [] [("x", ["end"], RouteLevel.mk [("h", 7, 2)] [] [] [])] :
          RouteLevel Nat) ["a", "b", "end"] [] false).head? =
        some ⟨7, setAssoc [] "x"
          (joinSlash (["a", "b", "end"].take
            (["a", "b", "end"].length - ["end"].length))), 2⟩)) :=
  ⟨rfl, c1_catchAll_match "x" ["end"] _ ("h", 7, 2) [] [] ["a", "b", "end"] rfl⟩

/-- Witness for C2: the exact static match `a/b` resolves to the handler
at the static leaf. -/
theorem c2_static_preference_witness :
    staticDescend
      (RouteLevel.mk [] [("a", RouteLevel.mk [] [("b", RouteLevel.mk [("m", 5, 2)] [] [] [])] [] [])] [] [] :
        RouteLevel Nat) ["a", "b"] =
      some (RouteLevel.mk [("m", 5, 2)] [] [] []) ∧
    (findHandlers
      (RouteLevel.mk [] [("a", RouteLevel.mk [] [("b", RouteLevel.mk [("m", 5, 2)] [] [] [])] [] [])] [] [] :
        RouteLevel Nat) ["a", "b"] [] false).head? = some ⟨5, [], 2⟩ ∧
    getHandlerSingle "get" ["a", "b"]
      [("get",
        (RouteLevel.mk [] [("a", RouteLevel.mk [] [("b", RouteLevel.mk [("m", 5, 2)] [] [] [])] [] [])] [] [] :
          RouteLevel Nat))] = some ⟨5, [], 2⟩ :=
  ⟨rfl,
    c2_static_preference.1 _ ["a", "b"] _ ("m", 5, 2) [] [] rfl rfl,
    c2_static_preference.2 _ "get" ["a", "b"] _ _ ("m", 5, 2) [] rfl rfl rfl⟩

theorem lookupAssoc_setAssoc_ne {β : Type} (l : List (String × β)) (k k' : String)
    (v : β) (h : k' ≠ k) : lookupAssoc (setAssoc l k v) k' = lookupAssoc l k' := by
  induction l with
  | nil =>
    simp only [setAssoc, lookupAssoc]
    rw [if_neg (fun hh : k = k' => h hh.symm)]
  | cons kv rest ih =>
    by_cases hk : kv.1 = k
    · simp only [setAssoc, if_pos hk, lookupAssoc]
      rw [if_neg (fun hh : k = k' => h hh.symm),
        if_neg (fun hh : kv.1 = k' => h (hk.symm.trans hh).symm)]
    · simp only [setAssoc, if_neg hk, lookupAssoc]
      by_cases hk' : kv.1 = k'
      · rw [if_pos hk', if_pos hk']
      · rw [if_neg hk', if_neg hk', ih]

/-- Counterexample for C6: a multi lookup with handlers registered under
both the `get` root and the `any` root for the same (empty) path.  The
specific-method search yields a match, yet the `any` root still
contributes: the multi result collects both handlers, contradicting the
claim that the `any` root is not consulted for every lookup kind. -/
theorem c6_counterexample :
    findHandlers (RouteLevel.mk [("g", 1, 2)] [] [] [] : RouteLevel Nat) [] [] false ≠ [] ∧
    getHandlerMulti "get" []
      [("get", (RouteLevel.mk [("g", 1, 2)] [] [] [] : RouteLevel Nat)),
       ("any", RouteLevel.mk [("a", 2, 2)] [] [] [])] =
      [⟨1, [], 2⟩, ⟨2, [], 2⟩] := by
  constructor
  · decide
  · rfl

/-- C6 (amended): for single (non-multi) lookups, a non-empty
specific-method search determines the result and the `any` root is not
consulted (replacing the `any` root leaves the result unchanged); for
multi lookups both the specific-method root and the `any` root are always
accumulated, specific first. -/
theorem c6_any_fallback {α : Type} :
    (∀ (source : List (String × RouteLevel α)) (method : String) (path : List String)
      (lvl : RouteLevel α) (h : HandlerRes α) (t : List (HandlerRes α)),
      lookupAssoc source method = some lvl →
      findHandlers lvl path [] false = h :: t →
      getHandlerSingle method path source = some h) ∧
    (∀ (source : List (String × RouteLevel α)) (method : String) (path : List String)
      (lvl : RouteLevel α) (h : HandlerRes α) (t : List (HandlerRes α))
      (anyLvl : RouteLevel α),
      method ≠ "any" →
      lookupAssoc source method = some lvl →
      findHandlers lvl path [] false = h :: t →
      getHandlerSingle method path (setAssoc source "any" anyLvl) = some h) ∧
    (∀ (source : List (String × RouteLevel α)) (method : String) (path : List String),
      getHandlerMulti method path source =
        (match lookupAssoc source method with
         | some lvl => findHandlers lvl path [] true
         | none => []) ++
        (match lookupAssoc source "any" with
         | some lvl => findHandlers lvl path [] true
         | none => [])) := by
  have single : ∀ (source : List (String × RouteLevel α)) (method : String)
      (path : List String) (lvl : RouteLevel α) (h : HandlerRes α) (t : List (HandlerRes α)),
      lookupAssoc source method = some lvl →
      findHandlers lvl path [] false = h :: t →
      getHandlerSingle method path source = some h := by
    intro source method path lvl h t hm hf
    simp [getHandlerSingle, hm, hf]
  refine ⟨single, ?_, fun _ _ _ => rfl⟩
  intro source method path lvl h t anyLvl hne hm hf
  exact single _ method path lvl h t
    (by rw [lookupAssoc_setAssoc_ne source "any" method anyLvl hne]; exact hm) hf

/-- Witness for C6 (amended): a single lookup with a match under `get`
ignores the `any` root. -/
theorem c6_any_fallback_witness :
    lookupAssoc [("get", (RouteLevel.mk [("g", 1, 2)] [] [] [] : RouteLevel Nat))] "get" =
      some (RouteLevel.mk [("g", 1, 2)] [] [] []) ∧
    findHandlers (RouteLevel.mk [("g", 1, 2)] [] [] [] : RouteLevel Nat) [] [] false =
      ⟨1, [], 2⟩ :: [] ∧
    ("get" : String) ≠ "any" ∧
    getHandlerSingle "get" []
      (setAssoc [("get", (RouteLevel.mk [("g", 1, 2)] [] [] [] : RouteLevel Nat))] "any"
        (RouteLevel.mk [("a", 2, 2)] [] [] [])) = some ⟨1, [], 2⟩ :=
  ⟨rfl, rfl, by decide,
    c6_any_fallback.2.1 _ "get" [] _ ⟨1, [], 2⟩ [] _ (by decide) rfl rfl⟩

/-! ## Registration-failure theorems (C9) -/

/-- A handler with id `i` is attached somewhere in the (sub)trie. -/
inductive IdIn {α : Type} (i : String) : RouteLevel α → Prop where
  | here {hs : List (HandlerEntry α)} {ss ds cs} {e : HandlerEntry α} :
      e ∈ hs → e.1 = i → IdIn i (.mk hs ss ds cs)
  | inStatic {hs ss ds cs} {p : String × RouteLevel α} :
      p ∈ ss → IdIn i p.2 → IdIn i (.mk hs ss ds cs)
  | inDyn {hs ss ds cs} {d : String × (List MatchTok × List String × RouteLevel α)} :
      d ∈ ds → IdIn i d.2.2.2 → IdIn i (.mk hs ss ds cs)
  | inCatch {hs ss ds cs} {c : String × List String × RouteLevel α} :
      c ∈ cs → IdIn i c.2.2 → IdIn i (.mk hs ss ds cs)

theorem not_IdIn_empty {α : Type} (s : String) : ¬ IdIn s (RouteLevel.empty : RouteLevel α) := by
  intro h
  cases h <;> simp_all [RouteLevel.empty]

theorem mem_setAssoc {β : Type} {x : String × β} {l : List (String × β)} {k : String}
    {v : β} (h : x ∈ setAssoc l k v) : x = (k, v) ∨ x ∈ l := by
  induction l with
  | nil => simpa [setAssoc] using h
  | cons kv rest ih =>
    by_cases hk : kv.1 = k
    · rw [setAssoc, if_pos hk] at h
      rcases List.mem_cons.mp h with h1 | h1
      · exact Or.inl h1
      · exact Or.inr (List.mem_cons_of_mem _ h1)
    · rw [setAssoc, if_neg hk] at h
      rcases List.mem_cons.mp h with h1 | h1
      · exact Or.inr (h1 ▸ List.mem_cons_self _ _)
      · rcases ih h1 with h2 | h2
        · exact Or.inl h2
        · exact Or.inr (List.mem_cons_of_mem _ h2)

theorem lookupAssoc_mem {β : Type} {l : List (String × β)} {k : String} {v : β}
    (h : lookupAssoc l k = some v) : (k, v) ∈ l := by
  induction l with
  | nil => simp [lookupAssoc] at h
  | cons kv rest ih =>
    by_cases hk : kv.1 = k
    · rw [lookupAssoc, if_pos hk] at h
      obtain rfl : kv.2 = v := by injection h
      exact (show kv = (k, kv.2) from by rw [← hk]) ▸ List.mem_cons_self _ _
    · rw [lookupAssoc, if_neg hk] at h
      exact List.mem_cons_of_mem _ (ih h)

/-- A segment beginning with `:` (a dynamic `:name` or catch-all `::name`
segment). -/
def startsWithColon (s : String) : Bool :=
  match s.data with
  | ':' :: _ => true
  | _ => false

/-- The pattern contains a dynamic or catch-all segment after a catch-all
segment. -/
def hasBadCatchAll : List String → Bool
  | [] => false
  | p :: rest => (isCatchAllSeg p && rest.any startsWithColon) || hasBadCatchAll rest

theorem containsColon_of_startsWithColon {q : String} (h : startsWithColon q = true) :
    containsColon q = true := by
  unfold startsWithColon at h
  unfold containsColon
  match hd : q.data with
  | ':' :: _ => simp [hd, List.contains_cons]
  | [] => rw [hd] at h; simp at h
  | c :: tl =>
    rw [hd] at h
    by_cases hc : c = ':'
    · subst hc; simp [hd, List.contains_cons]
    · simp [hc] at h

theorem containsColon_of_isCatchAllSeg {q : String} (h : isCatchAllSeg q = true) :
    containsColon q = true := by
  unfold isCatchAllSeg at h
  unfold containsColon
  match hd : q.data with
  | ':' :: _ => simp [hd, List.contains_cons]
  | [] => rw [hd] at h; simp at h
  | c :: tl =>
    rw [hd] at h
    by_cases hc : c = ':'
    · subst hc; simp [hd, List.contains_cons]
    · simp [hc] at h

theorem any_containsColon_of_hasBadCatchAll {l : List String}
    (h : hasBadCatchAll l = true) : l.any containsColon = true := by
  induction l with
  | nil => simp [hasBadCatchAll] at h
  | cons p rest ih =>
    rw [hasBadCatchAll, Bool.or_eq_true, Bool.and_eq_true] at h
    rcases h with ⟨hca, _⟩ | hrec
    · exact List.any_cons .. ▸ Bool.or_eq_true _ _ |>.mpr
        (Or.inl (containsColon_of_isCatchAllSeg hca))
    · exact List.any_cons .. ▸ Bool.or_eq_true _ _ |>.mpr (Or.inr (ih hrec))

theorem any_mono_startsWithColon {l : List String} (h : l.any startsWithColon = true) :
    l.any containsColon = true := by
  rw [List.any_eq_true] at h ⊢
  obtain ⟨q, hq, hsw⟩ := h
  exact ⟨q, hq, containsColon_of_startsWithColon hsw⟩

/-- Core of C9: inserting a pattern with a dynamic or catch-all segment
after a catch-all segment reports a registration error and attaches no
handler to any node of the (possibly skeleton-extended) result. -/
theorem insertHandler_bad_catchAll {α : Type} :
    ∀ (parts : List String) (level : RouteLevel α) (entry : HandlerEntry α),
      hasBadCatchAll parts = true →
      (insertHandler level parts entry).2.isSome = true ∧
      (∀ s, IdIn s (insertHandler level parts entry).1 → IdIn s level) := by
  intro parts
  induction parts with
  | nil =>
    intro level entry h
    simp [hasBadCatchAll] at h
  | cons p rest ih =>
    intro level entry hbad
    obtain ⟨hs, ss, ds, cs⟩ := level
    rw [hasBadCatchAll, Bool.or_eq_true, Bool.and_eq_true] at hbad
    rcases hres : insertHandler (RouteLevel.mk hs ss ds cs) (p :: rest) entry
      with ⟨lvl2, err⟩
    simp only [insertHandler] at hres
    by_cases hca : isCatchAllSeg p = true
    · have hrest : rest.any containsColon = true := by
        rcases hbad with ⟨_, hsw⟩ | hrec
        · exact any_mono_startsWithColon hsw
        · exact any_containsColon_of_hasBadCatchAll hrec
      rw [if_pos hca] at hres
      by_cases hname : catchAllName p = ""
      · rw [if_pos hname] at hres
        injection hres with h1 h2
        subst h1; subst h2
        exact ⟨rfl, fun s h => h⟩
      · rw [if_neg hname, if_pos hrest] at hres
        injection hres with h1 h2
        subst h1; subst h2
        exact ⟨rfl, fun s h => h⟩
    · have hbad' : hasBadCatchAll rest = true := by
        rcases hbad with ⟨hc, _⟩ | hrec
        · exact absurd hc hca
        · exact hrec
      rw [if_neg hca] at hres
      by_cases hdyn : containsColon p = true
      · rw [if_pos hdyn] at hres
        simp only [RouteLevel.dynamicRoutes, RouteLevel.staticRoutes,
          RouteLevel.handlers, RouteLevel.catchAllRoutes] at hres
        match hlk : lookupAssoc ds p with
        | some d =>
          simp only [hlk] at hres
          rcases hrec2 : insertHandler d.2.2 rest entry with ⟨sub2, err2⟩
          rw [hrec2] at hres
          obtain ⟨hsome, hpres⟩ := ih d.2.2 entry hbad'
          rw [hrec2] at hsome hpres
          injection hres with h1 h2
          subst h1; subst h2
          refine ⟨hsome, ?_⟩
          intro s h
          cases h with
          | here hmem heq => exact IdIn.here hmem heq
          | inStatic hmem hin => exact IdIn.inStatic hmem hin
          | inCatch hmem hin => exact IdIn.inCatch hmem hin
          | inDyn hmem hin =>
            rcases mem_setAssoc hmem with h1 | h1
            · subst h1
              exact IdIn.inDyn (lookupAssoc_mem hlk) (hpres s hin)
            · exact IdIn.inDyn h1 hin
        | none =>
          simp only [hlk] at hres
          match hcomp : compileDynSeg p with
          | .error e =>
            simp only [hcomp] at hres
            injection hres with h1 h2
            subst h1; subst h2
            exact ⟨rfl, fun s h => h⟩
          | .ok tm =>
            obtain ⟨tm1, tm2⟩ := tm
            simp only [hcomp] at hres
            rcases hrec2 : insertHandler (RouteLevel.empty : RouteLevel α) rest entry
              with ⟨sub2, err2⟩
            obtain ⟨hsome, hpres⟩ := ih (RouteLevel.empty) entry hbad'
            rw [hrec2] at hsome hpres
            rw [hrec2] at hres
            injection hres with h1 h2
            subst h1; subst h2
            refine ⟨hsome, ?_⟩
            intro s h
            cases h with
            | here hmem heq => exact IdIn.here hmem heq
            | inStatic hmem hin => exact IdIn.inStatic hmem hin
            | inCatch hmem hin => exact IdIn.inCatch hmem hin
            | inDyn hmem hin =>
              rcases List.mem_append.mp hmem with h1 | h1
              · exact IdIn.inDyn h1 hin
              · rw [List.mem_singleton] at h1
                subst h1
                exact absurd (hpres s hin) (not_IdIn_empty s)
      · rw [if_neg hdyn] at hres
        simp only [RouteLevel.dynamicRoutes, RouteLevel.staticRoutes,
          RouteLevel.handlers, RouteLevel.catchAllRoutes] at hres
        match hlk : lookupAssoc ss p with
        | some sub =>
          simp only [hlk] at hres
          rcases hrec2 : insertHandler sub rest entry with ⟨sub2, err2⟩
          rw [hrec2] at hres
          obtain ⟨hsome, hpres⟩ := ih sub entry hbad'
          rw [hrec2] at hsome hpres
          injection hres with h1 h2
          subst h1; subst h2
          refine ⟨hsome, ?_⟩
          intro s h
          cases h with
          | here hmem heq => exact IdIn.here hmem heq
          | inDyn hmem hin => exact IdIn.inDyn hmem hin
          | inCatch hmem hin => exact IdIn.inCatch hmem hin
          | inStatic hmem hin =>
            rcases mem_setAssoc hmem with h1 | h1
            · subst h1
              exact IdIn.inStatic (lookupAssoc_mem hlk) (hpres s hin)
            · exact IdIn.inStatic h1 hin
        | none =>
          simp only [hlk] at hres
          rcases hrec2 : insertHandler (RouteLevel.empty : RouteLevel α) rest entry
            with ⟨sub2, err2⟩
          rw [hrec2] at hres
          obtain ⟨hsome, hpres⟩ := ih (RouteLevel.empty) entry hbad'
          rw [hrec2] at hsome hpres
          injection hres with h1 h2
          subst h1; subst h2
          refine ⟨hsome, ?_⟩
          intro s h
          cases h with
          | here hmem heq => exact IdIn.here hmem heq
          | inDyn hmem hin => exact IdIn.inDyn hmem hin
          | inCatch hmem hin => exact IdIn.inCatch hmem hin
          | inStatic hmem hin =>
            rcases List.mem_append.mp hmem with h1 | h1
            · exact IdIn.inStatic h1 hin
            · rw [List.mem_singleton] at h1
              subst h1
              exact absurd (hpres s hin) (not_IdIn_empty s)

/-- C9: registering a pattern that has a dynamic (`:name`) or catch-all
(`::name`) segment after a catch-all segment fails synchronously with a
registration error, and the handler is attached to no trie node: every id
present in the resulting (at most skeleton-extended) tree was already
present before.  The same holds through `registerHandler` for the stored
method root. -/
theorem c9_dyn_after_catchAll {α : Type} :
    (∀ (parts : List String) (level : RouteLevel α) (entry : HandlerEntry α),
      hasBadCatchAll parts = true →
      (insertHandler level parts entry).2.isSome = true ∧
      (∀ s, IdIn s (insertHandler level parts entry).1 → IdIn s level)) ∧
    (∀ (roots : Roots α) (mode : Mode) (method : Option String) (location : String)
      (id : String) (cb : α) (priority : Nat),
      hasBadCatchAll (splitPath location) = true →
      (registerHandler roots mode method location id cb priority).2.isSome = true) := by
  refine ⟨insertHandler_bad_catchAll, ?_⟩
  intro roots mode method location id cb priority hbad
  have h := (insertHandler_bad_catchAll (splitPath location)
    ((lookupAssoc (roots.get mode)
      (match method with
       | some m => if jsToLower m = "" then "any" else jsToLower m
       | none => "any")).getD RouteLevel.empty) (id, cb, priority) hbad).1
  simpa [registerHandler] using h

/-- Witness for C9: registering `a/::x/:y` fails and attaches nothing. -/
theorem c9_dyn_after_catchAll_witness :
    hasBadCatchAll ["a", "::x", ":y"] = true ∧
    (insertHandler (RouteLevel.empty : RouteLevel Nat) ["a", "::x", ":y"]
      ("bad", 0, 2)).2.isSome = true ∧
    hasBadCatchAll (splitPath "/a/::x/:y") = true ∧
    (registerHandler (Roots.empty : Roots Nat) Mode.mainMode (some "GET") "/a/::x/:y"
      "bad" 0 2).2.isSome = true :=
  ⟨by decide,
    (c9_dyn_after_catchAll.1 ["a", "::x", ":y"] RouteLevel.empty ("bad", 0, 2)
      (by decide)).1,
    by decide,
    c9_dyn_after_catchAll.2 Roots.empty Mode.mainMode (some "GET") "/a/::x/:y"
      "bad" 0 2 (by decide)⟩

/-! ## Priority-sort lemmas -/

theorem mem_insertByPriority {α : Type} {y h : HandlerRes α} :
    ∀ {l : List (HandlerRes α)}, y ∈ insertByPriority h l → y = h ∨ y ∈ l := by
  intro l
  induction l with
  | nil => intro hy; simpa [insertByPriority] using hy
  | cons x xs ih =>
    intro hy
    rw [insertByPriority] at hy
    by_cases hc : x.priority ≤ h.priority
    · rw [if_pos hc] at hy
      rcases List.mem_cons.mp hy with h1 | h1
      · exact Or.inr (h1 ▸ List.mem_cons_self _ _)
      · rcases ih h1 with h2 | h2
        · exact Or.inl h2
        · exact Or.inr (List.mem_cons_of_mem _ h2)
    · rw [if_neg hc] at hy
      rcases List.mem_cons.mp hy with h1 | h1
      · exact Or.inl h1
      · exact Or.inr h1

theorem pairwise_insertByPriority {α : Type} {h : HandlerRes α}
    {l : List (HandlerRes α)}
    (hl : l.Pairwise (fun a b => a.priority ≤ b.priority)) :
    (insertByPriority h l).Pairwise (fun a b => a.priority ≤ b.priority) := by
  induction l with
  | nil => simp [insertByPriority]
  | cons x xs ih =>
    rw [List.pairwise_cons] at hl
    obtain ⟨hx, hxs⟩ := hl
    rw [insertByPriority]
    by_cases hc : x.priority ≤ h.priority
    · rw [if_pos hc, List.pairwise_cons]
      refine ⟨?_, ih hxs⟩
      intro y hy
      rcases mem_insertByPriority hy with h1 | h1
      · exact h1 ▸ hc
      · exact hx y h1
    · rw [if_neg hc, List.pairwise_cons]
      refine ⟨?_, List.pairwise_cons.mpr ⟨hx, hxs⟩⟩
      intro y hy
      rcases List.mem_cons.mp hy with h1 | h1
      · subst h1; omega
      · exact le_trans (by omega) (hx y h1)

theorem perm_insertByPriority {α : Type} (h : HandlerRes α) :
    ∀ (l : List (HandlerRes α)), List.Perm (insertByPriority h l) (h :: l) := by
  intro l
  induction l with
  | nil => simp [insertByPriority]
  | cons x xs ih =>
    rw [insertByPriority]
    by_cases hc : x.priority ≤ h.priority
    · rw [if_pos hc]
      exact (ih.cons x).trans (List.Perm.swap h x xs)
    · rw [if_neg hc]

theorem sortByPriority_sorted {α : Type} (l : List (HandlerRes α)) :
    (sortByPriority l).Pairwise (fun a b => a.priority ≤ b.priority) := by
  have aux : ∀ (l acc : List (HandlerRes α)),
      acc.Pairwise (fun a b => a.priority ≤ b.priority) →
      (l.foldl (fun acc h => insertByPriority h acc) acc).Pairwise
        (fun a b => a.priority ≤ b.priority) := by
    intro l
    induction l with
    | nil => intro acc hacc; simpa using hacc
    | cons x xs ih =>
      intro acc hacc
      exact ih _ (pairwise_insertByPriority hacc)
  exact aux l [] (by simp)

theorem sortByPriority_perm {α : Type} (l : List (HandlerRes α)) :
    List.Perm (sortByPriority l) l := by
  have aux : ∀ (l acc : List (HandlerRes α)),
      List.Perm (l.foldl (fun acc h => insertByPriority h acc) acc) (acc ++ l) := by
    intro l
    induction l with
    | nil => intro acc; simp
    | cons x xs ih =>
      intro acc
      refine (ih (insertByPriority x acc)).trans ?_
      refine ((perm_insertByPriority x acc).append_right xs).trans ?_
      exact List.perm_middle.symm
  simpa using aux l []

/-- `addHeader` only touches the header map; folding any list of headers
over a response leaves status, body, content type and stream flag
unchanged. -/
theorem foldl_addHeader_fields (r : HTTPResult) (headers : List (String × String)) :
    (headers.foldl (fun r kv => r.addHeader kv.1 kv.2) r).status = r.status ∧
    (headers.foldl (fun r kv => r.addHeader kv.1 kv.2) r).body = r.body ∧
    (headers.foldl (fun r kv => r.addHeader kv.1 kv.2) r).contentType = r.contentType ∧
    (headers.foldl (fun r kv => r.addHeader kv.1 kv.2) r).stream = r.stream := by
  induction headers generalizing r with
  | nil => simp
  | cons kv rest ih =>
    simpa [HTTPResult.addHeader] using ih { r with headers := setAssoc r.headers kv.1 kv.2 }

/-- The prefix-phase short-circuit inside `tryBlock`. -/
theorem tryBlock_pre_short (handler? : Option HandlerResC)
    (preHs postHs : List HandlerResC) (method : String) (ctx ctx' : Ctx) (v : JSValue)
    (hhand : handler?.isSome = true ∨ method = "options")
    (hpre : executePriorityHandlers preHs ctx = (ctx', .ok (some v))) :
    tryBlock handler? preHs postHs method ctx =
      ({ ctx' with response := HTTPResult.withHeaders v ctx'.response.getHeaders 200 },
        none, none) := by
  have hcond : ¬ (handler?.isNone && !(decide (method = "options"))) = true := by
    rcases hhand with h | h
    · simp [Option.isNone_iff_eq_none, Option.isSome_iff_exists] at h ⊢
      obtain ⟨a, ha⟩ := h
      simp [ha]
    · simp [h]
  rw [tryBlock]
  rw [if_neg (by simpa using hcond)]
  rw [hpre]

/-- C3: prefix handlers run in ascending priority value (the sorted list
is pairwise ordered and a permutation of the matches); the first truthy
return short-circuits the phase without touching the remaining handlers;
at the pipeline level a truthy prefix result becomes the response via
`HTTPResult.withHeaders` at default status 200 (so a truthy string `s`
becomes the body of a 200 response with the already-accumulated headers),
the main handler is never invoked, no error is recorded, the postfix root
is irrelevant to the outcome, and the monitor phase still runs. -/
theorem c3_priority_short_circuit :
    (∀ (l : List HandlerResC),
      (sortByPriority l).Pairwise (fun a b => a.priority ≤ b.priority) ∧
      List.Perm (sortByPriority l) l) ∧
    (∀ (h : HandlerResC) (t : List HandlerResC) (ctx ctx' : Ctx) (v : JSValue),
      h.callback { ctx with routeParameters := h.parameters } = (ctx', .ok v) →
      truthy v = true →
      runPhase (h :: t) ctx = (ctx', .ok (some v))) ∧
    (∀ (s : String) (headers : List (String × String)),
      (HTTPResult.withHeaders (.str s) headers 200).status = 200 ∧
      (HTTPResult.withHeaders (.str s) headers 200).body = s) ∧
    (∀ (roots : Roots RouteCallback) (method : String) (path : List String)
      (isHead : Bool) (ctx' : Ctx) (v : JSValue),
      ((resolveMain roots method path).isSome = true ∨ method = "options") →
      executePriorityHandlers (getHandlerMulti method path roots.preRoutes) initialCtx =
        (ctx', .ok (some v)) →
      (dispatch roots method path isHead).invokedMain = none ∧
      (dispatch roots method path isHead).finalError = none ∧
      (dispatch roots method path isHead).finalResponse =
        HTTPResult.withHeaders v ctx'.response.getHeaders 200 ∧
      (dispatch roots method path isHead).monitorCalls = 1 ∧
      (∀ (post2 : List (String × RouteLevel RouteCallback)),
        dispatch { roots with postRoutes := post2 } method path isHead =
          dispatch roots method path isHead)) := by
  refine ⟨fun l => ⟨sortByPriority_sorted l, sortByPriority_perm l⟩, ?_, ?_, ?_⟩
  · intro h t ctx ctx' v hcb htr
    rw [runPhase, hcb]
    simp [htr]
  · intro s headers
    have h := foldl_addHeader_fields (HTTPResult.make 200 (.str s) none) headers
    exact ⟨h.1, h.2.1⟩
  · intro roots method path isHead ctx' v hhand hpre
    have htb := tryBlock_pre_short (resolveMain roots method path)
      (getHandlerMulti method path roots.preRoutes)
      (getHandlerMulti method path roots.postRoutes) method initialCtx ctx' v hhand hpre
    refine ⟨?_, ?_, ?_, ?_, ?_⟩
    · simp only [dispatch, htb]
    · simp only [dispatch, htb]
    · simp only [dispatch, htb]
    · simp only [dispatch, htb]
    · intro post2
      have htb2 := tryBlock_pre_short (resolveMain roots method path)
        (getHandlerMulti method path roots.preRoutes)
        (getHandlerMulti method path post2) method initialCtx ctx' v hhand hpre
      have hrm : resolveMain { roots with postRoutes := post2 } method path =
          resolveMain roots method path := rfl
      simp only [dispatch, hrm, htb, htb2]

/-- Concrete main handler for the C3 witness. -/
def c3wMain : RouteLevel RouteCallback :=
  .mk [("m", fun ctx => (ctx, .ok (.str "main")), 2)] [] [] []

/-- Concrete truthy prefix handler for the C3 witness. -/
def c3wPre : RouteLevel RouteCallback :=
  .mk [("p", fun ctx => (ctx, .ok (.str "blocked")), 1)] [] [] []

def c3wRoots : Roots RouteCallback :=
  ⟨[("get", c3wMain)], [("get", c3wPre)], [], [], []⟩

/-- Witness for C3: a truthy prefix return short-circuits a concrete
request, skipping the main handler. -/
theorem c3_priority_short_circuit_witness :
    (resolveMain c3wRoots "get" []).isSome = true ∧
    executePriorityHandlers (getHandlerMulti "get" [] c3wRoots.preRoutes) initialCtx =
      (initialCtx, .ok (some (.str "blocked"))) ∧
    (dispatch c3wRoots "get" [] false).invokedMain = none ∧
    (dispatch c3wRoots "get" [] false).finalResponse =
      HTTPResult.withHeaders (.str "blocked") initialCtx.response.getHeaders 200 :=
  ⟨rfl, rfl,
    (c3_priority_short_circuit.2.2.2 c3wRoots "get" [] false initialCtx
      (.str "blocked") (Or.inl rfl) rfl).1,
    (c3_priority_short_circuit.2.2.2 c3wRoots "get" [] false initialCtx
      (.str "blocked") (Or.inl rfl) rfl).2.2.1⟩

/-! ## Monitor-isolation theorems (C4) -/

theorem setAssoc_of_lookup_none {β : Type} {l : List (String × β)} {k : String}
    (v : β) (h : lookupAssoc l k = none) : setAssoc l k v = l ++ [(k, v)] := by
  induction l with
  | nil => rfl
  | cons kv rest ih =>
    rw [lookupAssoc] at h
    by_cases hk : kv.1 = k
    · rw [if_pos hk] at h; exact absurd h (by simp)
    · rw [if_neg hk] at h
      rw [setAssoc, if_neg hk, ih h]
      rfl

theorem lookupAssoc_append {β : Type} (l1 l2 : List (String × β)) (k : String) :
    lookupAssoc (l1 ++ l2) k =
      match lookupAssoc l1 k with
      | some v => some v
      | none => lookupAssoc l2 k := by
  induction l1 with
  | nil => rfl
  | cons kv rest ih =>
    by_cases hk : kv.1 = k
    · simp [lookupAssoc, hk]
    · simp only [List.cons_append, lookupAssoc, if_neg hk]
      exact ih

theorem foldl_setAssoc_of_fresh {β : Type} :
    ∀ (l acc : List (String × β)),
      (∀ kv ∈ l, lookupAssoc acc kv.1 = none) → (l.map Prod.fst).Nodup →
      l.foldl (fun a kv => setAssoc a kv.1 kv.2) acc = acc ++ l := by
  intro l
  induction l with
  | nil => intro acc _ _; simp
  | cons kv rest ih =>
    intro acc hfresh hnd
    rw [List.map_cons, List.nodup_cons] at hnd
    rw [List.foldl_cons, setAssoc_of_lookup_none kv.2 (hfresh kv (List.mem_cons_self _ _)),
      ih (acc ++ [(kv.1, kv.2)]) ?_ hnd.2]
    · simp
    · intro kv' hkv'
      rw [lookupAssoc_append, hfresh kv' (List.mem_cons_of_mem _ hkv')]
      rw [lookupAssoc, lookupAssoc]
      rw [if_neg]
      intro hh
      exact hnd.1 (hh ▸ (List.mem_map.mpr ⟨kv', hkv', rfl⟩))

theorem foldl_addHeader_headers (r : HTTPResult) (hs : List (String × String)) :
    (hs.foldl (fun s kv => s.addHeader kv.1 kv.2) r).headers =
      hs.foldl (fun a kv => setAssoc a kv.1 kv.2) r.headers := by
  induction hs generalizing r with
  | nil => rfl
  | cons kv rest ih => simpa [HTTPResult.addHeader] using ih { r with headers := setAssoc r.headers kv.1 kv.2 }

/-- C4: the monitor phase runs exactly once per dispatched request; the
snapshot context handed to the monitors carries the final thrown error and
a response that is `cloneResponse` of the final response; `cloneResponse`
copies status, body, content type and (for a well-formed header map, i.e.
one without duplicate keys) the headers into a fresh non-streaming
instance; and neither the transmitted response nor the final response
depends on the monitor root at all, so no monitor mutation, return value
or exception can change what is transmitted. -/
theorem c4_monitor_isolation :
    (∀ (roots : Roots RouteCallback) (method : String) (path : List String) (isHead : Bool),
      (dispatch roots method path isHead).monitorCalls = 1 ∧
      (dispatch roots method path isHead).monitorInput.response =
        cloneResponse (dispatch roots method path isHead).finalResponse ∧
      (dispatch roots method path isHead).monitorInput.error =
        (dispatch roots method path isHead).finalError ∧
      (dispatch roots method path isHead).monitorInput.routeParameters = []) ∧
    (∀ (r : HTTPResult),
      (cloneResponse r).status = r.status ∧
      (cloneResponse r).body = r.body ∧
      (cloneResponse r).contentType = r.contentType ∧
      (cloneResponse r).stream = false ∧
      ((r.headers.map Prod.fst).Nodup → (cloneResponse r).headers = r.headers)) ∧
    (∀ (roots : Roots RouteCallback)
      (m1 m2 : List (String × RouteLevel RouteCallback))
      (method : String) (path : List String) (isHead : Bool),
      (dispatch { roots with monitorRoutes := m1 } method path isHead).transmitted =
        (dispatch { roots with monitorRoutes := m2 } method path isHead).transmitted ∧
      (dispatch { roots with monitorRoutes := m1 } method path isHead).finalResponse =
        (dispatch { roots with monitorRoutes := m2 } method path isHead).finalResponse ∧
      (dispatch { roots with monitorRoutes := m1 } method path isHead).finalError =
        (dispatch { roots with monitorRoutes := m2 } method path isHead).finalError) := by
  refine ⟨?_, ?_, ?_⟩
  · intro roots method path isHead
    exact ⟨rfl, rfl, rfl, rfl⟩
  · intro r
    have hf := foldl_addHeader_fields
      (HTTPResult.make r.status (.str r.body) (some r.contentType)) r.headers
    refine ⟨hf.1, hf.2.1, hf.2.2.1, hf.2.2.2, ?_⟩
    intro hnd
    rw [cloneResponse, foldl_addHeader_headers]
    have := foldl_setAssoc_of_fresh r.headers [] (by intro kv _; rfl) hnd
    simp only [HTTPResult.make, HTTPResult.setBody, HTTPResult.setStatus] at this ⊢
    simpa using this
  · intro roots m1 m2 method path isHead
    exact ⟨rfl, rfl, rfl⟩

/-- Witness for C4: clone header copying on a concrete duplicate-free
header map. -/
theorem c4_monitor_isolation_witness :
    ((([("A", "1"), ("B", "2")] : List (String × String)).map Prod.fst).Nodup) ∧
    (cloneResponse ⟨201, "ok", "text/plain", false, [("A", "1"), ("B", "2")]⟩).headers =
      [("A", "1"), ("B", "2")] :=
  ⟨by decide,
    ((c4_monitor_isolation.2.1 ⟨201, "ok", "text/plain", false,
      [("A", "1"), ("B", "2")]⟩).2.2.2.2 (by decide))⟩

/-! ## Error-conversion theorems (C5) -/

theorem withHeaders_status_nonresult (v : JSValue) (headers : List (String × String))
    (st : Nat) (h : ∀ r, v ≠ .result r) :
    (HTTPResult.withHeaders v headers st).status = st := by
  rw [HTTPResult.withHeaders]
  exact (foldl_addHeader_fields _ _).1
  exact fun r hr => h r hr

theorem withHeaders_status_result (r : HTTPResult) (headers : List (String × String))
    (st : Nat) : (HTTPResult.withHeaders (.result r) headers st).status = r.status :=
  (foldl_addHeader_fields _ _).1

theorem withHeaders_body_str (s : String) (headers : List (String × String)) (st : Nat) :
    (HTTPResult.withHeaders (.str s) headers st).body = s :=
  (foldl_addHeader_fields _ _).2.1

theorem withHeaders_body_json (s : String) (headers : List (String × String)) (st : Nat) :
    (HTTPResult.withHeaders (.jsonObj s) headers st).body = s :=
  (foldl_addHeader_fields _ _).2.1

theorem make_headers_nil (st : Nat) (v : JSValue) (t : Option String) :
    (HTTPResult.make st v t).headers = [] := by
  cases v <;> rfl

theorem withHeaders_headers_nonresult (v : JSValue) (headers : List (String × String))
    (st : Nat) (h : ∀ r, v ≠ .result r) (hnd : (headers.map Prod.fst).Nodup) :
    (HTTPResult.withHeaders v headers st).headers = headers := by
  have haux : ∀ (base : HTTPResult), base.headers = [] →
      (headers.foldl (fun r kv => r.addHeader kv.1 kv.2) base).headers = headers := by
    intro base hbase
    rw [foldl_addHeader_headers, hbase]
    simpa using foldl_setAssoc_of_fresh headers [] (fun kv _ => rfl) hnd
  rw [HTTPResult.withHeaders]
  exact haux _ (make_headers_nil _ _ _)
  exact fun r hr => h r hr

/-- Concrete roots for the C5 counterexample: the main handler throws an
`HTTPResult` with status 403. -/
def c5xRoots : Roots RouteCallback :=
  ⟨[("get", .mk [("m",
      fun ctx => (ctx, .error (.resultVal ⟨403, "Forbidden", "text/plain", false, []⟩)),
      2)] [] [] [])], [], [], [], []⟩

/-- Counterexample for C5: an exception raised during the main phase (a
thrown `HTTPResult` of status 403, exactly what
`src/index.ts`'s `testThrow` test does with `throw new HTTPResult()`) is
caught, but the transmitted response has status 403, not 500:
`HTTPResult.withHeaders` reuses a thrown `HTTPResult` with its own status
instead of wrapping it at the default status 500. -/
theorem c5_counterexample :
    (dispatch c5xRoots "get" [] false).finalError.isSome = true ∧
    (dispatch c5xRoots "get" [] false).transmitted.status = 403 ∧
    ¬ (dispatch c5xRoots "get" [] false).transmitted.status = 500 :=
  ⟨rfl, rfl, by decide⟩

/-- C5 (amended): any exception raised during the prefix, main or postfix
phase is caught exactly once; the error value is attached to the
context's error field, and the monitor phase sees it; the response becomes
`HTTPResult.withHeaders (extractError e) (headers so far) 500` — a 500
response whose body is the error's message (or serialized form when there
is none) with accumulated headers preserved, unless the extracted value is
itself an `HTTPResult`, which is kept with its own status. -/
theorem c5_error_conversion (roots : Roots RouteCallback) (method : String)
    (path : List String) (isHead : Bool) (ctx1 : Ctx) (e : JSError)
    (inv : Option HandlerResC)
    (htb : tryBlock (resolveMain roots method path)
      (getHandlerMulti method path roots.preRoutes)
      (getHandlerMulti method path roots.postRoutes) method initialCtx =
      (ctx1, some e, inv)) :
    (dispatch roots method path isHead).finalError = some e ∧
    (dispatch roots method path isHead).monitorInput.error = some e ∧
    (dispatch roots method path isHead).finalResponse =
      HTTPResult.withHeaders (extractError e) ctx1.response.getHeaders 500 ∧
    ((∀ r, extractError e ≠ .result r) →
      (dispatch roots method path isHead).finalResponse.status = 500) ∧
    (∀ s, extractError e = .str s →
      (dispatch roots method path isHead).finalResponse.body = s) ∧
    (∀ j, extractError e = .jsonObj j →
      (dispatch roots method path isHead).finalResponse.body = j) ∧
    (∀ r, extractError e = .result r →
      (dispatch roots method path isHead).finalResponse.status = r.status) ∧
    ((ctx1.response.headers.map Prod.fst).Nodup → (∀ r, extractError e ≠ .result r) →
      (dispatch roots method path isHead).finalResponse.headers =
        ctx1.response.headers) := by
  have hd : (dispatch roots method path isHead).finalResponse =
      HTTPResult.withHeaders (extractError e) ctx1.response.getHeaders 500 := by
    simp only [dispatch, htb]
  refine ⟨by simp only [dispatch, htb], by simp only [dispatch, htb, executeMonitors], hd,
    ?_, ?_, ?_, ?_, ?_⟩
  · intro hnr
    rw [hd]
    exact withHeaders_status_nonresult _ _ _ hnr
  · intro s hs
    rw [hd, hs]
    exact withHeaders_body_str s _ 500
  · intro j hj
    rw [hd, hj]
    exact withHeaders_body_json j _ 500
  · intro r hr
    rw [hd, hr]
    exact withHeaders_status_result r _ 500
  · intro hnd hnr
    rw [hd]
    exact withHeaders_headers_nonresult _ _ _ hnr hnd

/-- Concrete roots for the C5 witness: the main handler throws an error
object with message `"boom"`. -/
def c5wRoots : Roots RouteCallback :=
  ⟨[("get", .mk [("m",
      fun ctx => (ctx, .error (.withMessage (.str "boom") "{}")),
      2)] [] [] [])], [], [], [], []⟩

/-- Witness for C5 (amended): a thrown `Error`-like object becomes a 500
response whose body is its message. -/
theorem c5_error_conversion_witness :
    tryBlock (resolveMain c5wRoots "get" []) (getHandlerMulti "get" [] c5wRoots.preRoutes)
      (getHandlerMulti "get" [] c5wRoots.postRoutes) "get" initialCtx =
      (initialCtx, some (.withMessage (.str "boom") "{}"),
        some ⟨fun ctx => (ctx, .error (.withMessage (.str "boom") "{}")), [], 2⟩) ∧
    (dispatch c5wRoots "get" [] false).finalError =
      some (.withMessage (.str "boom") "{}") ∧
    (dispatch c5wRoots "get" [] false).finalResponse.status = 500 ∧
    (dispatch c5wRoots "get" [] false).finalResponse.body = "boom" :=
  ⟨rfl,
    (c5_error_conversion c5wRoots "get" [] false initialCtx
      (.withMessage (.str "boom") "{}") _ rfl).1,
    (c5_error_conversion c5wRoots "get" [] false initialCtx
      (.withMessage (.str "boom") "{}") _ rfl).2.2.2.1 (by intro r h; cases h),
    (c5_error_conversion c5wRoots "get" [] false initialCtx
      (.withMessage (.str "boom") "{}") _ rfl).2.2.2.2.1 "boom" rfl⟩

/-! ## Streaming-mode theorems (C7) -/

/-- Counterexample for C7: after streaming starts (`getWriteStream` with
status 200 and type `text/event-stream`), a later `setStatus 500` changes
the transmitted status to 500, and a later `setBody` changes the
transmitted `Content-Type` to `text/plain` — the transmitted status and
content type are the object's current fields at send time, not the values
captured at the moment streaming started. -/
theorem c7_counterexample :
    ((((HTTPResult.make 404 (.str "Not Found") none).getWriteStream
        "text/event-stream" 200).setStatus 500).sendResponse false).status = 500 ∧
    ¬ ((((HTTPResult.make 404 (.str "Not Found") none).getWriteStream
        "text/event-stream" 200).setStatus 500).sendResponse false).status = 200 ∧
    ((((HTTPResult.make 404 (.str "Not Found") none).getWriteStream
        "text/event-stream" 200).setBody (.str "x") none).sendResponse false).headers =
      [("Content-Type", "text/plain")] ∧
    ¬ ("text/plain" = "text/event-stream") :=
  ⟨rfl, by decide, rfl, by decide⟩

/-- C7 (amended): once a response is streaming, the transmitted body is
the piped stream — body mutations via `setBody` never change it — and a
main handler's return value never replaces the response
(`setHandlerResponse` is the identity on a streaming context);
`getWriteStream` sets status and content type, and an unmutated streaming
response transmits exactly those; in general the transmitted status and
content type are the response's current fields at send time. -/
theorem c7_stream_transmission :
    (∀ (r : HTTPResult) (b : JSValue) (t : Option String), r.stream = true →
      ((r.setBody b t).sendResponse false).body = .streamed ∧
      (r.sendResponse false).body = .streamed) ∧
    (∀ (ctx : Ctx) (v : JSValue), ctx.response.isStream = true →
      setHandlerResponse ctx v = ctx) ∧
    (∀ (r : HTTPResult) (t : String) (s : Nat),
      ((r.getWriteStream t s).sendResponse false) =
        ⟨s, setAssoc r.headers "Content-Type" t, .streamed⟩) ∧
    (∀ (r : HTTPResult),
      (r.sendResponse false).status = r.status ∧
      (r.sendResponse false).headers = setAssoc r.headers "Content-Type" r.contentType) := by
  refine ⟨?_, ?_, ?_, ?_⟩
  · intro r b t hs
    cases b <;> simp [HTTPResult.setBody, HTTPResult.sendResponse, hs]
  · intro ctx v h
    rw [setHandlerResponse, if_pos h]
  · intro r t s
    rfl
  · intro r
    exact ⟨rfl, rfl⟩

/-- Witness for C7 (amended): on a concrete streaming response, `setBody`
does not change the streamed transmission and `setHandlerResponse` is the
identity. -/
theorem c7_stream_transmission_witness :
    ((HTTPResult.make 404 (.str "Not Found") none).getWriteStream
      "text/event-stream" 200).stream = true ∧
    ((((HTTPResult.make 404 (.str "Not Found") none).getWriteStream
        "text/event-stream" 200).setBody (.str "ignored") none).sendResponse false).body =
      .streamed ∧
    ({ routeParameters := [],
       response := (HTTPResult.make 404 (.str "Not Found") none).getWriteStream
         "text/event-stream" 200,
       error := none } : Ctx).response.isStream = true ∧
    setHandlerResponse
      { routeParameters := [],
        response := (HTTPResult.make 404 (.str "Not Found") none).getWriteStream
          "text/event-stream" 200,
        error := none } (.str "ignored") =
      { routeParameters := [],
        response := (HTTPResult.make 404 (.str "Not Found") none).getWriteStream
          "text/event-stream" 200,
        error := none } :=
  ⟨rfl,
    (c7_stream_transmission.1 _ (.str "ignored") none rfl).1,
    rfl,
    c7_stream_transmission.2.1 _ (.str "ignored") rfl⟩

/-! ## HEAD-fallback theorems (C8) -/

/-- C8: a HEAD request to a path with no HEAD main handler but a GET main
handler resolves and invokes the GET handler, and (in the absence of
matching prefix/postfix handlers and with the handler returning normally)
transmits the status, headers and content type of the response the handler
produced, with the body omitted. -/
theorem c8_head_falls_back_to_get (roots : Roots RouteCallback) (path : List String)
    (h : HandlerResC) (ctx3 : Ctx) (v : JSValue)
    (hHead : getHandlerSingle "head" path roots.mainRoutes = none)
    (hGet : getHandlerSingle "get" path roots.mainRoutes = some h)
    (hpre : getHandlerMulti "head" path roots.preRoutes = [])
    (hpost : getHandlerMulti "head" path roots.postRoutes = [])
    (hcb : h.callback { initialCtx with routeParameters := h.parameters } = (ctx3, .ok v)) :
    (dispatch roots "head" path true).invokedMain = some h ∧
    (dispatch roots "head" path true).finalError = none ∧
    (dispatch roots "head" path true).finalResponse = (setHandlerResponse ctx3 v).response ∧
    (dispatch roots "head" path true).transmitted =
      ⟨(setHandlerResponse ctx3 v).response.status,
        setAssoc (setHandlerResponse ctx3 v).response.headers "Content-Type"
          (setHandlerResponse ctx3 v).response.contentType,
        .omitted⟩ := by
  have hrm : resolveMain roots "head" path = some h := by
    rw [resolveMain, hHead]
    simp [hGet]
  have htb : tryBlock (resolveMain roots "head" path)
      (getHandlerMulti "head" path roots.preRoutes)
      (getHandlerMulti "head" path roots.postRoutes) "head" initialCtx =
      (setHandlerResponse ctx3 v, none, some h) := by
    rw [hrm, hpre, hpost, tryBlock]
    rw [if_neg (by simp)]
    simp only [executePriorityHandlers, sortByPriority, List.foldl_nil, runPhase, hcb]
  refine ⟨by simp only [dispatch, htb], by simp only [dispatch, htb],
    by simp only [dispatch, htb], ?_⟩
  simp only [dispatch, htb]
  rfl

/-- Concrete GET-only handler root for the C8 witness. -/
def c8wRoots : Roots RouteCallback :=
  ⟨[("get", .mk [("m",
      fun ctx =>
        ({ ctx with response := (HTTPResult.make 201 (.str "made") none).addHeader "K" "V" },
          .ok .undef),
      2)] [] [] [])], [], [], [], []⟩

/-- Witness for C8: a concrete HEAD request served by the GET handler,
transmitting its status and headers with the body omitted. -/
theorem c8_head_falls_back_to_get_witness :
    getHandlerSingle "head" [] c8wRoots.mainRoutes = none ∧
    (getHandlerSingle "get" [] c8wRoots.mainRoutes).isSome = true ∧
    (dispatch c8wRoots "head" [] true).finalError = none ∧
    (dispatch c8wRoots "head" [] true).transmitted.body = .omitted ∧
    (dispatch c8wRoots "head" [] true).transmitted.status = 200 :=
  ⟨rfl, rfl,
    (c8_head_falls_back_to_get c8wRoots [] _ _ .undef rfl rfl rfl rfl rfl).2.1,
    by rw [(c8_head_falls_back_to_get c8wRoots [] _ _ .undef rfl rfl rfl rfl rfl).2.2.2],
    by
      rw [(c8_head_falls_back_to_get c8wRoots [] _ _ .undef rfl rfl rfl rfl rfl).2.2.2]
      rfl⟩

/-! ## Path/method normalization theorems (C10) -/

theorem jsSplitOnSlash_ne_nil (cs : List Char) : jsSplitOnSlash cs ≠ [] := by
  induction cs with
  | nil => simp [jsSplitOnSlash]
  | cons c rest ih =>
    rw [jsSplitOnSlash]
    by_cases hc : c = '/'
    · simp [hc]
    · simp only [if_neg hc]
      obtain ⟨s0, t0, h0⟩ := List.exists_cons_of_ne_nil ih
      rw [h0]
      simp

theorem jsSplitOnSlash_append_slash (bs : List Char) :
    ∀ (as : List Char),
      jsSplitOnSlash (as ++ '/' :: bs) = jsSplitOnSlash as ++ jsSplitOnSlash bs := by
  intro as
  induction as with
  | nil => simp [jsSplitOnSlash]
  | cons c rest ih =>
    by_cases hc : c = '/'
    · subst hc
      rw [List.cons_append, jsSplitOnSlash, if_pos rfl, ih, jsSplitOnSlash, if_pos rfl]
      rfl
    · rw [List.cons_append, jsSplitOnSlash, if_neg hc, ih]
      conv_rhs => rw [jsSplitOnSlash, if_neg hc]
      obtain ⟨s0, t0, h0⟩ := List.exists_cons_of_ne_nil (jsSplitOnSlash_ne_nil rest)
      rw [h0]
      rfl

/-- C10: both registration and dispatch depend on the path only through
`splitPath` (split on `/`, drop empty segments), which ignores leading,
trailing and repeated slashes; both lowercase the method, so method
matching is case-insensitive on both sides. -/
theorem c10_normalization :
    (∀ {α : Type} (roots : Roots α) (mode : Mode) (method : Option String)
      (loc1 loc2 id : String) (cb : α) (priority : Nat),
      splitPath loc1 = splitPath loc2 →
      registerHandler roots mode method loc1 id cb priority =
        registerHandler roots mode method loc2 id cb priority) ∧
    (∀ (roots : Roots RouteCallback) (m : Option String) (p1 p2 : String),
      splitPath p1 = splitPath p2 →
      requestListener roots m p1 = requestListener roots m p2) ∧
    (∀ (s : String), splitPath ("/" ++ s) = splitPath s) ∧
    (∀ (s : String), splitPath (s ++ "/") = splitPath s) ∧
    (∀ (a b : String), splitPath (a ++ "//" ++ b) = splitPath (a ++ "/" ++ b)) ∧
    (∀ {α : Type} (roots : Roots α) (mode : Mode) (m1 m2 loc id : String) (cb : α)
      (priority : Nat),
      jsToLower m1 = jsToLower m2 →
      registerHandler roots mode (some m1) loc id cb priority =
        registerHandler roots mode (some m2) loc id cb priority) ∧
    (∀ (roots : Roots RouteCallback) (m1 m2 p : String),
      jsToLower m1 = jsToLower m2 →
      requestListener roots (some m1) p = requestListener roots (some m2) p) := by
  refine ⟨?_, ?_, ?_, ?_, ?_, ?_, ?_⟩
  · intro α roots mode method loc1 loc2 id cb priority h
    simp only [registerHandler, h]
  · intro roots m p1 p2 h
    simp only [requestListener, h]
  · intro s
    have hd : ("/" ++ s).data = '/' :: s.data := String.data_append "/" s
    rw [splitPath, hd, jsSplitOnSlash, if_pos rfl]
    simp [splitPath]
  · intro s
    have hd : (s ++ "/").data = s.data ++ '/' :: [] := String.data_append s "/"
    rw [splitPath, hd, jsSplitOnSlash_append_slash]
    rw [List.filter_append]
    simp [splitPath, jsSplitOnSlash]
  · intro a b
    have hd1 : (a ++ "//" ++ b).data = a.data ++ '/' :: ('/' :: b.data) := by
      rw [String.data_append, String.data_append]
      rw [show ("//" : String).data = ['/', '/'] from rfl, List.append_assoc]
      rfl
    have hd2 : (a ++ "/" ++ b).data = a.data ++ '/' :: b.data := by
      rw [String.data_append, String.data_append]
      rw [show ("/" : String).data = ['/'] from rfl, List.append_assoc]
      rfl
    rw [splitPath, splitPath, hd1, hd2, jsSplitOnSlash_append_slash,
      jsSplitOnSlash_append_slash, List.filter_append, List.filter_append,
      jsSplitOnSlash, if_pos rfl]
    simp
  · intro α roots mode m1 m2 loc id cb priority h
    simp only [registerHandler, h]
  · intro roots m1 m2 p h
    simp only [requestListener, h]

/-- Witness for C10: `/a//b/` and `a/b` split identically and register
identically; `GET` and `get` lowercase identically and dispatch
identically. -/
theorem c10_normalization_witness :
    splitPath "/a//b/" = splitPath "a/b" ∧
    registerHandler (Roots.empty : Roots Nat) Mode.mainMode none "/a//b/" "h" 7 2 =
      registerHandler Roots.empty Mode.mainMode none "a/b" "h" 7 2 ∧
    jsToLower "GET" = jsToLower "get" ∧
    registerHandler (Roots.empty : Roots Nat) Mode.mainMode (some "GET") "x" "h" 7 2 =
      registerHandler Roots.empty Mode.mainMode (some "get") "x" "h" 7 2 :=
  ⟨by decide,
    c10_normalization.1 Roots.empty Mode.mainMode none "/a//b/" "a/b" "h" 7 2 (by decide),
    by decide,
    c10_normalization.2.2.2.2.2.1 Roots.empty Mode.mainMode "GET" "get" "x" "h" 7 2
      (by decide)⟩

end ApiCore
